import Mathlib

/-!
Verification of the class-hierarchy charting tool (`src/structure_chart.py`).

The development shallowly embeds the core of the script:

* `section_template`, `node_template`, `node_label` — member classification and
  HTML-like label assembly (source lines 114-244);
* `classtree_class` / `classtree_recursion` / `classtree` — the hierarchy
  builder (source lines 247-272); the Python `for`-loop body of
  `classtree_recursion` is split off as `classtree_class`;
* `generate_dot` with its inner `recursion` (split into `dot_tree` /
  `dot_recursion`) — the graph assembler (source lines 275-352);
* `main_excluded` — the default exclusion of `object` performed by the
  `__main__` block (source lines 412-431).

Modelling conventions:

* A Python class object is a `Cls`: its identity (`id(cls)`) is the `id`
  field, and Python `==` / `in` on classes (which is object identity) is
  `idEq` / `memId`, comparing the `id` fields.
* `inspect.classify_class_attrs(cls)` is modelled by the `attrs` field: one
  `Attr` per attribute, with `definingClass` holding the identity of the
  class the attribute is defined in (Python compares
  `attr.defining_class != cls`, an identity comparison).
* `getattr(cls, "__abstractmethods__", [])` is the `abstractmethods` field,
  and `inspect.isabstract` is `isabstract` (true iff that set is non-empty).
* Python string indexing `s[i]` raises `IndexError` when out of range;
  fallible computations therefore live in `Except String`.
* The module-level `include_*` flags (set by the `__main__` block and read
  as globals by `node_label`) are threaded explicitly as a `Config` record.
* A `graphviz.Digraph` is a `Digraph` record; `dot.node` / `dot.edge` calls
  append `Stmt`s to its body.  In the dot language repeated node statements
  with the same name denote a single node whose attributes are updated, so
  the semantic node set of a graph is `nodeSpecs` (an upsert fold).
-/

namespace StructureChart

/-- One entry of `inspect.classify_class_attrs(cls)`: attribute name, its
reflective `kind` string, and the identity of its `defining_class`. -/
structure Attr where
  name : String
  kind : String
  definingClass : Nat
deriving DecidableEq

/-- A live Python class object: its identity, `__name__`, `__module__`,
`__bases__`, the result of `classify_class_attrs` on it, and
`getattr(cls, "__abstractmethods__", [])`. -/
inductive Cls where
  | mk (id : Nat) (name : String) (moduleName : String) (bases : List Cls)
       (attrs : List Attr) (abstractmethods : List String)

def Cls.cid : Cls → Nat
  | .mk i _ _ _ _ _ => i

def Cls.name : Cls → String
  | .mk _ n _ _ _ _ => n

def Cls.moduleName : Cls → String
  | .mk _ _ m _ _ _ => m

def Cls.bases : Cls → List Cls
  | .mk _ _ _ b _ _ => b

def Cls.attrs : Cls → List Attr
  | .mk _ _ _ _ a _ => a

def Cls.abstractmethods : Cls → List String
  | .mk _ _ _ _ _ am => am

/-- Python `==` on class objects is object identity. -/
def idEq (a b : Cls) : Bool := a.cid == b.cid

/-- Python `c in l` for a list of class objects (identity-based). -/
def memId (c : Cls) (l : List Cls) : Bool := l.any (idEq c)

/-- `inspect.isabstract(cls)`: true iff the class has a non-empty
`__abstractmethods__` set. -/
def isabstract (c : Cls) : Bool := !c.abstractmethods.isEmpty

/-- Source lines 114-124.  `section_template(section_name, section)`; the
Python `if section:` test is falsy both for `None` and for an empty list. -/
def section_template (section_name : String) (sec : Option (List String)) : String :=
  match sec with
  | some s =>
    if s.isEmpty then ""
    else
      "<hr/><tr><td align=\"left\"><b>" ++ section_name ++ "</b></td></tr>"
        ++ "<tr><td align=\"left\" balign=\"left\">" ++ String.intercalate "<br/>" s
        ++ "</td></tr>"
  | none => ""

/-- Source lines 127-176.  `node_template`; arguments in the source's
parameter order. -/
def node_template (cls : Cls) (fillcolor : String) (show_module : Bool)
    (classmethods : Option (List String)) (data : Option (List String))
    (methods : Option (List String)) (abstractmethods : Option (List String))
    (properties : Option (List String)) (staticmethods : Option (List String))
    (privatemethods : Option (List String)) (magicmethods : Option (List String)) :
    String :=
  let datasection := section_template "Data attributes" data
  let methodsection := section_template "Methods" methods
  let abstractsection := section_template "Abstract methods" abstractmethods
  let propertysection := section_template "Properties" properties
  let classsection := section_template "Class methods" classmethods
  let staticsection := section_template "Static methods" staticmethods
  let privatesection := section_template "Private members" privatemethods
  let magicsection := section_template "Magic members" magicmethods
  let modulesection :=
    if show_module then
      "<hr/><tr><td align=\"left\"><b>" ++ cls.moduleName ++ "</b></td></tr>"
    else ""
  let header :=
    "<\n    <table border=\"1\" cellborder=\"0\" cellpadding=\"2\" cellspacing=\"0\" align=\"left\"\n    color=\""
      ++ fillcolor ++ "\">\n    <tr><td align=\"center\">\n      <b>"
      ++ (if isabstract cls then "<i>" ++ cls.name ++ "</i>" else cls.name)
      ++ "</b>\n    </td></tr>\n    " ++ modulesection ++ "\n    "
  header ++ "\n    " ++ datasection ++ "\n    " ++ propertysection ++ "\n    "
    ++ methodsection ++ "\n    " ++ abstractsection ++ "\n    " ++ classsection
    ++ "\n    " ++ staticsection ++ "\n    " ++ privatesection ++ "\n    "
    ++ magicsection ++ "\n    </table>>"

/-- The member buckets built up by the loop in `node_label`
(source lines 193-230), plus the `warnings.warn` messages issued. -/
structure Buckets where
  classmethods : List String
  data : List String
  methods : List String
  properties : List String
  staticmethods : List String
  privatemethods : List String
  magicmethods : List String
  warnings : List String
deriving DecidableEq

def emptyBuckets : Buckets := ⟨[], [], [], [], [], [], [], []⟩

/-- The bucket a member can be filed under by the `elif` chain. -/
inductive MKind where
  | data
  | method
  | property
  | classmethod
  | staticmethod
  | privatemember
  | magicmember
deriving DecidableEq

/-- The kind-based arms of the `elif` chain (source lines 216-230): the five
recognized `inspect` kinds; any other kind falls through to the
`warnings.warn` branch (`none`). -/
def kind_bucket (kind : String) : Option MKind :=
  if kind == "data" then some MKind.data
  else if kind == "method" then some MKind.method
  else if kind == "property" then some MKind.property
  else if kind == "class method" then some MKind.classmethod
  else if kind == "static method" then some MKind.staticmethod
  else none

/-- Python `name[:2]` (slicing never raises). -/
def name_slice_front (s : String) : List Char := s.data.take 2

/-- Python `name[-2:]` (slicing never raises). -/
def name_slice_back (s : String) : List Char := s.data.drop (s.data.length - 2)

/-- Source lines 211-230, the bucket choice for one attribute:
`if name[:2] == "__" and name[-2:] == "__"` files it under magic;
`elif name[0] == "_" and name[1] != "_"` files it under private — where
`name[0]` and `name[1]` are Python indexing and raise `IndexError` when out
of range (note the short-circuit: `name[1]` is only evaluated when
`name[0] == "_"`); otherwise the kind-based arms run. -/
def attr_bucket (name kind : String) : Except String (Option MKind) :=
  if name_slice_front name == ['_', '_'] && name_slice_back name == ['_', '_'] then
    Except.ok (some MKind.magicmember)
  else
    match name.data[0]? with
    | none => Except.error "IndexError: string index out of range"
    | some c0 =>
      if c0 == '_' then
        match name.data[1]? with
        | none => Except.error "IndexError: string index out of range"
        | some c1 =>
          if c1 != '_' then Except.ok (some MKind.privatemember)
          else Except.ok (kind_bucket kind)
      else Except.ok (kind_bucket kind)

/-- Appending one classified attribute to the buckets; an unrecognized kind
(`none`) records the non-fatal `warnings.warn` message instead. -/
def add_bucket (b : Option MKind) (nm : String) (cls_name : String) (kind : String)
    (bs : Buckets) : Buckets :=
  match b with
  | some MKind.data => { bs with data := nm :: bs.data }
  | some MKind.method => { bs with methods := nm :: bs.methods }
  | some MKind.property => { bs with properties := nm :: bs.properties }
  | some MKind.classmethod => { bs with classmethods := nm :: bs.classmethods }
  | some MKind.staticmethod => { bs with staticmethods := nm :: bs.staticmethods }
  | some MKind.privatemember => { bs with privatemethods := nm :: bs.privatemethods }
  | some MKind.magicmember => { bs with magicmethods := nm :: bs.magicmethods }
  | none =>
    { bs with
      warnings :=
        ("Uncovered class attribute kind detected: (" ++ cls_name ++ ", " ++ nm
          ++ ", " ++ kind ++ ")") :: bs.warnings }

/-- The loop of `node_label` (source lines 204-230): attributes whose
`defining_class` is not `cls` itself are skipped; the rest are classified in
iteration order.  The first `IndexError` aborts the whole computation, as in
Python. -/
def classify_attrs (cls_id : Nat) (cls_name : String) : List Attr → Except String Buckets
  | [] => Except.ok emptyBuckets
  | a :: rest =>
    if a.definingClass != cls_id then classify_attrs cls_id cls_name rest
    else
      match attr_bucket a.name a.kind with
      | Except.error e => Except.error e
      | Except.ok b =>
        (classify_attrs cls_id cls_name rest).map (add_bucket b a.name cls_name a.kind)

/-- The module-level `include_*` flags read by `node_label`
(source lines 364-387), threaded explicitly. -/
structure Config where
  include_abstractmethods : Bool
  include_classmethods : Bool
  include_data : Bool
  include_methods : Bool
  include_properties : Bool
  include_staticmethods : Bool
  include_privatemethods : Bool
  include_magicmethods : Bool
deriving DecidableEq

/-- Python `xs if flag else None` as used at source lines 236-243. -/
def optIf (flag : Bool) (l : List String) : Option (List String) :=
  if flag then some l else none

/-- The final `node_template` call of `node_label` (source lines 232-244),
with the computed buckets and the class's `__abstractmethods__` as inputs. -/
def render_label (cfg : Config) (cls : Cls) (root : Bool) (show_module : Bool)
    (bs : Buckets) (abstractmethods : List String) : String :=
  node_template cls (if root then "red" else "black") show_module
    (optIf cfg.include_classmethods bs.classmethods)
    (optIf cfg.include_data bs.data)
    (optIf cfg.include_methods bs.methods)
    (optIf cfg.include_abstractmethods abstractmethods)
    (optIf cfg.include_properties bs.properties)
    (optIf cfg.include_staticmethods bs.staticmethods)
    (optIf cfg.include_privatemethods bs.privatemethods)
    (optIf cfg.include_magicmethods bs.magicmethods)

/-- Source lines 179-244: `node_label(cls, root, show_module)` under the
given flags.  Raises (returns `Except.error`) iff the classification loop
raises. -/
def node_label (cfg : Config) (cls : Cls) (root : Bool) (show_module : Bool) :
    Except String String :=
  (classify_attrs cls.cid cls.name cls.attrs).map
    (fun bs => render_label cfg cls root show_module bs cls.abstractmethods)

/-- A node of the hierarchy tree built by `classtree_recursion`: the Python
code stores either a bare class (a leaf, when `c.__bases__` is empty) or a
pair `(c, subtrees)` (when `c.__bases__` is non-empty — even if every base
is excluded, in which case the subtree list is empty). -/
inductive HTree where
  | leaf (c : Cls)
  | node (c : Cls) (bts : List HTree)

mutual

/-- The body of the `for c in classes` loop of `classtree_recursion`
(source lines 251-261) for a single class `c`: skipped entirely when its
name is excluded; otherwise registered in `all_classes` (idempotently, by
identity) and turned into a leaf or an internal node.  Returns the (zero or
one) trees this iteration appends to `out` together with the updated
registry. -/
def classtree_class (c : Cls) (all_classes : List Cls) (exclude : List String) :
    List HTree × List Cls :=
  match c with
  | .mk i n md bases attrs am =>
    if exclude.contains n then ([], all_classes)
    else
      let c' := Cls.mk i n md bases attrs am
      let acc1 := if memId c' all_classes then all_classes else all_classes ++ [c']
      if bases.isEmpty then ([HTree.leaf c'], acc1)
      else
        let pb := classtree_recursion bases acc1 exclude
        ([HTree.node c' pb.1], pb.2)

/-- Source lines 247-262: `classtree_recursion(classes, all_classes,
exclude)`.  The Python function mutates `all_classes` in place; here the
registry is threaded through and returned alongside the tree list. -/
def classtree_recursion (classes : List Cls) (all_classes : List Cls)
    (exclude : List String) : List HTree × List Cls :=
  match classes with
  | [] => ([], all_classes)
  | c :: rest =>
    let p1 := classtree_class c all_classes exclude
    let p2 := classtree_recursion rest p1.2 exclude
    (p1.1 ++ p2.1, p2.2)

end

/-- Source lines 265-272: `classtree(classes, exclude)` starts the recursion
with an empty registry.  (The Python default `exclude=None` becomes `[]`;
`classtree` itself adds no exclusion of its own.) -/
def classtree (classes : List Cls) (exclude : List String) :
    List HTree × List Cls :=
  classtree_recursion classes [] exclude

/-- Source lines 412-431 of the `__main__` block: the exclusion list handed
to `classtree` is the user-supplied `--exclude` names with `"object"`
appended unconditionally (`excluded_cls.append("object")`). -/
def main_excluded (user : List String) : List String := user ++ ["object"]

/-- One statement appended to the `graphviz.Digraph` body: a `dot.node` call
(name and label) or a `dot.edge` call (tail name, head name, `style`,
`arrowhead`). -/
inductive Stmt where
  | node (name : String) (label : String)
  | edge (tail_name : String) (head_name : String) (style : String) (arrowhead : String)
deriving DecidableEq

/-- The `graphviz.Digraph` object as configured at source lines 288-302,
with the sequence of `dot.node` / `dot.edge` calls recorded in `body`. -/
structure Digraph where
  format : String
  engine : String
  encoding : String
  graph_attr : List (String × String)
  node_attr : List (String × String)
  edge_attr : List (String × String)
  strict : Bool
  body : List Stmt
deriving DecidableEq

/-- Source lines 280-286: the root classes are read off the top level of the
tree (`subtree[0]` for a pair, the class itself for a leaf). -/
def tree_roots (tree : List HTree) : List Cls :=
  tree.map (fun t =>
    match t with
    | HTree.leaf c => c
    | HTree.node c _ => c)

/-- Source lines 336-349: the edge-drawing loop of `recursion` for an
internal node `cls` with subtree list `bases`: one `dot.edge` per base
subtree that is a pair (`isinstance(b, tuple)`), directed base → derived,
dashed iff the base class is abstract; a bare-leaf base gets no edge. -/
def edges_for (cls : Cls) (bases : List HTree) : List Stmt :=
  bases.filterMap (fun b =>
    match b with
    | HTree.node b_cls _ =>
      some (Stmt.edge b_cls.name cls.name
        (if isabstract b_cls then "dashed" else "solid") "vee")
    | HTree.leaf _ => none)

mutual

/-- The statements `recursion` (source lines 304-351) emits for one subtree:
a `dot.node` (keyed by `__name__`, labelled by `node_label` with
`root = subtree in root_cls`), then — for a pair — the recursive statements
for the base subtrees followed by the edge loop.  An `IndexError` escaping
`node_label` aborts everything, as in Python. -/
def dot_tree (cfg : Config) (root_cls : List Cls) (show_module : Bool) :
    HTree → Except String (List Stmt)
  | HTree.leaf c =>
    (node_label cfg c (memId c root_cls) show_module).map
      (fun lb => [Stmt.node c.name lb])
  | HTree.node c bases =>
    match node_label cfg c (memId c root_cls) show_module with
    | Except.error e => Except.error e
    | Except.ok lb =>
      match dot_recursion cfg root_cls show_module bases with
      | Except.error e => Except.error e
      | Except.ok rest => Except.ok (Stmt.node c.name lb :: rest ++ edges_for c bases)

/-- The `for subtree in classtree` loop of `recursion`, over a list of
subtrees. -/
def dot_recursion (cfg : Config) (root_cls : List Cls) (show_module : Bool) :
    List HTree → Except String (List Stmt)
  | [] => Except.ok []
  | t :: ts =>
    match dot_tree cfg root_cls show_module t with
    | Except.error e => Except.error e
    | Except.ok s1 =>
      match dot_recursion cfg root_cls show_module ts with
      | Except.error e => Except.error e
      | Except.ok s2 => Except.ok (s1 ++ s2)

end

/-- Source lines 275-352: `generate_dot(classtree, engine, show_module)`.
Note that the `Digraph` is constructed with the literal `engine="fdp"`
(source line 294); the `engine` parameter of `generate_dot` is never used. -/
def generate_dot (cfg : Config) (tree : List HTree) (engine : String)
    (show_module : Bool) : Except String Digraph :=
  (dot_recursion cfg (tree_roots tree) show_module tree).map (fun body =>
    { format := "svg"
      engine := "fdp"
      encoding := "utf-8"
      graph_attr := [("splines", "true")]
      node_attr := [("shape", "none")]
      edge_attr := [("arrowtail", "onormal"), ("dir", "back")]
      strict := true
      body := body })

/-- Dot-language node semantics: a later node statement with the same name
updates the attributes of the same node (it does not create a second one).
Updating or inserting one node statement into an association list keyed by
node name. -/
def upsert_node (acc : List (String × String)) (n lb : String) :
    List (String × String) :=
  if acc.any (fun p => p.1 == n) then
    acc.map (fun p => if p.1 == n then (n, lb) else p)
  else acc ++ [(n, lb)]

/-- The semantic node set of an emitted graph: one `(name, label)` entry per
distinct node name, in order of first emission, with the label of the last
node statement for that name. -/
def nodeSpecs (d : Digraph) : List (String × String) :=
  d.body.foldl (fun acc s =>
    match s with
    | Stmt.node n lb => upsert_node acc n lb
    | Stmt.edge _ _ _ _ => acc) []

/-- The names of the semantic nodes of an emitted graph. -/
def nodeNames (d : Digraph) : List String := (nodeSpecs d).map Prod.fst

/-- The `nodeSpecs` fold with an explicit accumulator (for induction). -/
def nodes_fold (acc : List (String × String)) (l : List Stmt) :
    List (String × String) :=
  l.foldl (fun acc s =>
    match s with
    | Stmt.node n lb => upsert_node acc n lb
    | Stmt.edge _ _ _ _ => acc) acc

def isEdge : Stmt → Bool
  | Stmt.edge _ _ _ _ => true
  | Stmt.node _ _ => false

/-- The edge statements among a statement list (edges are not deduplicated
further: each `dot.edge` call is one edge). -/
def edgeStmts (l : List Stmt) : List Stmt := l.filter isEdge

/-- The names carried by the node statements of a statement list, in
emission order (before dot-language deduplication). -/
def node_stmt_names (l : List Stmt) : List String :=
  l.filterMap (fun s =>
    match s with
    | Stmt.node n _ => some n
    | Stmt.edge _ _ _ _ => none)

mutual

/-- The classes of a hierarchy subtree in preorder (the order in which
`recursion` visits them). -/
def pre_tree : HTree → List Cls
  | HTree.leaf c => [c]
  | HTree.node c bts => c :: pre_forest bts

/-- The classes of a list of hierarchy subtrees in preorder. -/
def pre_forest : List HTree → List Cls
  | [] => []
  | t :: ts => pre_tree t ++ pre_forest ts

end

mutual

/-- Specification-side reachability: the classes the hierarchy walk visits
from one class — the class itself (unless its name is excluded) followed by
everything reachable from its direct bases.  The walk never continues
through an excluded class. -/
def reach (excl : List String) : Cls → List Cls
  | .mk i n md bases attrs am =>
    if excl.contains n then []
    else Cls.mk i n md bases attrs am :: reach_list excl bases

/-- Reachability from a list of root classes, in visit order. -/
def reach_list (excl : List String) : List Cls → List Cls
  | [] => []
  | c :: cs => reach excl c ++ reach_list excl cs

end

/-- All member buckets disabled (the script's default when no member flag is
passed). -/
def cfg0 : Config := ⟨false, false, false, false, false, false, false, false⟩

/-- Abstract-methods bucket enabled (the `-A` flag), everything else off. -/
def cfgAbs : Config := { cfg0 with include_abstractmethods := true }

/-- Python's universal base `object`: no bases, no declared members. -/
def objectCls : Cls := Cls.mk 0 "object" "builtins" [] [] []

/-- Diamond scenario of the spec: `A(B, C)`, `B(D)`, `C(D)`, `D(object)`. -/
def clsD : Cls := Cls.mk 4 "D" "m" [objectCls] [] []

def clsB : Cls := Cls.mk 2 "B" "m" [clsD] [] []

def clsC : Cls := Cls.mk 3 "C" "m" [clsD] [] []

def clsA : Cls := Cls.mk 1 "A" "m" [clsB, clsC] [] []

/-- Two distinct classes (different identities, different modules) sharing
the bare name `X`. -/
def clsX1 : Cls := Cls.mk 21 "X" "m1" [] [] []

def clsX2 : Cls := Cls.mk 22 "X" "m2" [] [] []

/-- An abstract base declaring `foo` as an abstract method. -/
def clsBase : Cls := Cls.mk 11 "Base" "m" [objectCls] [Attr.mk "foo" "method" 11] ["foo"]

/-- A subclass of `clsBase` that does not override `foo`: Python reflection
lists `foo` with `defining_class = Base`, and `Child.__abstractmethods__`
still contains `"foo"`. -/
def clsChild : Cls := Cls.mk 12 "Child" "m" [clsBase] [Attr.mk "foo" "method" 11] ["foo"]

/-- A class with an excluded base. -/
def clsHidden : Cls := Cls.mk 31 "Hidden" "m" [] [] []

def clsE : Cls := Cls.mk 32 "E" "m" [clsHidden] [] []

/-- A class declaring a class-level data attribute named `_`
(Python: `class U: _ = 1`). -/
def clsUnder : Cls := Cls.mk 41 "U" "m" [objectCls] [Attr.mk "_" "data" 41] []

/-- A base class with no bases at all (its subtree is a bare leaf). -/
def clsNoB : Cls := Cls.mk 51 "NB" "m" [] [] []

def clsDer : Cls := Cls.mk 52 "Der" "m" [clsNoB] [] []

/-- A hierarchy with one abstract internal base (`AbsB`), one concrete
internal base (`SolB`) and one bare-leaf base (`LeafB`). -/
def clsRoot2 : Cls := Cls.mk 61 "Root2" "m" [] [] []

def clsAbsB : Cls := Cls.mk 62 "AbsB" "m" [clsRoot2] [] ["f"]

def clsSolB : Cls := Cls.mk 63 "SolB" "m" [clsRoot2] [] []

def clsLeafB : Cls := Cls.mk 64 "LeafB" "m" [] [] []

def clsDer2 : Cls := Cls.mk 65 "Der2" "m" [clsAbsB, clsSolB, clsLeafB] [] []

/-- The base subtrees `classtree` builds for `clsDer2`. -/
def der2bases : List HTree :=
  [HTree.node clsAbsB [HTree.leaf clsRoot2],
   HTree.node clsSolB [HTree.leaf clsRoot2],
   HTree.leaf clsLeafB]


/-- Preorder traversal distributes over forest concatenation. -/
theorem pre_forest_append (a b : List HTree) :
    pre_forest (a ++ b) = pre_forest a ++ pre_forest b := by
  induction a with
  | nil => rfl
  | cons t ts ih => simp [pre_forest, ih]

mutual

/-- The classes of the subtree built for one class, in preorder, are exactly
the classes the hierarchy walk reaches from it — independently of the
registry accumulator. -/
theorem classtree_class_pre (c : Cls) (acc : List Cls) (e : List String) :
    pre_forest (classtree_class c acc e).1 = reach e c := by
  match c with
  | .mk i n md bases attrs am =>
    by_cases hc : n ∈ e
    · simp [classtree_class, reach, hc, pre_forest]
    · by_cases hb : bases = []
      · subst hb
        simp [classtree_class, reach, hc, pre_forest, pre_tree, reach_list]
      · simp [classtree_class, reach, hc, hb, pre_forest, pre_tree,
              classtree_recursion_pre bases]

/-- The classes of the tree built by `classtree_recursion`, in preorder, are
exactly the classes reachable from the input classes. -/
theorem classtree_recursion_pre (cs : List Cls) (acc : List Cls) (e : List String) :
    pre_forest (classtree_recursion cs acc e).1 = reach_list e cs := by
  match cs with
  | [] => rfl
  | c :: rest =>
    simp only [classtree_recursion, reach_list]
    rw [pre_forest_append, classtree_class_pre c acc e, classtree_recursion_pre rest _ e]

end

/-- Node-statement names distribute over statement-list concatenation. -/
theorem node_stmt_names_append (a b : List Stmt) :
    node_stmt_names (a ++ b) = node_stmt_names a ++ node_stmt_names b := by
  simp [node_stmt_names, List.filterMap_append]

/-- The edge loop emits no node statements. -/
theorem node_stmt_names_edges_for (c : Cls) (bts : List HTree) :
    node_stmt_names (edges_for c bts) = [] := by
  induction bts with
  | nil => rfl
  | cons t ts ih =>
    cases t with
    | leaf c' => simpa [edges_for, List.filterMap_cons] using ih
    | node b bts' =>
      simp [edges_for, List.filterMap_cons, node_stmt_names] at ih ⊢
      exact ih

mutual

/-- The node statements `recursion` emits for one subtree carry exactly the
names of the subtree's classes in preorder. -/
theorem dot_tree_nodes (cfg : Config) (rc : List Cls) (sm : Bool) (t : HTree)
    (l : List Stmt) (h : dot_tree cfg rc sm t = Except.ok l) :
    node_stmt_names l = (pre_tree t).map Cls.name := by
  match t with
  | HTree.leaf c =>
    cases hnl : node_label cfg c (memId c rc) sm with
    | error e => simp [dot_tree, hnl, Except.map] at h
    | ok lb =>
      simp [dot_tree, hnl, Except.map] at h
      simp [← h, node_stmt_names, pre_tree]
  | HTree.node c bts =>
    cases hnl : node_label cfg c (memId c rc) sm with
    | error e => simp [dot_tree, hnl] at h
    | ok lb =>
      cases hrec : dot_recursion cfg rc sm bts with
      | error e => simp [dot_tree, hnl, hrec] at h
      | ok rest =>
        simp [dot_tree, hnl, hrec] at h
        have hr := dot_recursion_nodes cfg rc sm bts rest hrec
        simp [← h, node_stmt_names, List.filterMap_cons, pre_tree]
        simp [node_stmt_names] at hr
        simp [List.filterMap_append, hr]
        have := node_stmt_names_edges_for c bts
        simpa [node_stmt_names] using this

/-- The node statements `recursion` emits for a subtree list carry exactly
the names of its classes in preorder. -/
theorem dot_recursion_nodes (cfg : Config) (rc : List Cls) (sm : Bool) (ts : List HTree)
    (l : List Stmt) (h : dot_recursion cfg rc sm ts = Except.ok l) :
    node_stmt_names l = (pre_forest ts).map Cls.name := by
  match ts with
  | [] =>
    simp [dot_recursion] at h
    subst h
    rfl
  | t :: ts' =>
    cases h1 : dot_tree cfg rc sm t with
    | error e => simp [dot_recursion, h1] at h
    | ok s1 =>
      cases h2 : dot_recursion cfg rc sm ts' with
      | error e => simp [dot_recursion, h1, h2] at h
      | ok s2 =>
        simp [dot_recursion, h1, h2] at h
        have e1 := dot_tree_nodes cfg rc sm t s1 h1
        have e2 := dot_recursion_nodes cfg rc sm ts' s2 h2
        simp [← h, node_stmt_names_append, e1, e2, pre_forest]

end


/-- Updating a node keeps the key list; inserting a fresh node appends its
name. -/
theorem upsert_keys (acc : List (String × String)) (n lb : String) :
    (upsert_node acc n lb).map Prod.fst =
      if n ∈ acc.map Prod.fst then acc.map Prod.fst
      else acc.map Prod.fst ++ [n] := by
  unfold upsert_node
  have hany : (acc.any (fun p => p.1 == n)) = true ↔ n ∈ acc.map Prod.fst := by
    simp [List.any_eq_true, List.mem_map]
  by_cases h : n ∈ acc.map Prod.fst
  · rw [if_pos (hany.mpr h), if_pos h, List.map_map]
    apply List.map_congr_left
    intro p hp
    by_cases hpn : p.1 = n
    · simp [hpn]
    · simp [hpn]
  · rw [if_neg (fun hh => h (hany.mp hh)), if_neg h]
    simp

/-- Unfolding the node-spec fold over a node statement. -/
theorem nodes_fold_cons_node (acc : List (String × String)) (n lb : String)
    (rest : List Stmt) :
    nodes_fold acc (Stmt.node n lb :: rest) = nodes_fold (upsert_node acc n lb) rest := rfl

/-- Edge statements do not touch the node specs. -/
theorem nodes_fold_cons_edge (acc : List (String × String)) (a b s ah : String)
    (rest : List Stmt) :
    nodes_fold acc (Stmt.edge a b s ah :: rest) = nodes_fold acc rest := rfl

/-- The node-spec fold: its key list covers exactly the accumulated keys and
the emitted node names, and it never introduces a duplicate key. -/
theorem nodes_fold_keys (l : List Stmt) : ∀ acc : List (String × String),
    (∀ k, k ∈ (nodes_fold acc l).map Prod.fst ↔
        (k ∈ acc.map Prod.fst ∨ k ∈ node_stmt_names l)) ∧
    ((acc.map Prod.fst).Nodup → ((nodes_fold acc l).map Prod.fst).Nodup) := by
  induction l with
  | nil =>
    intro acc
    constructor
    · intro k
      simp [nodes_fold, node_stmt_names]
    · intro hnd
      simpa [nodes_fold] using hnd
  | cons s rest ih =>
    intro acc
    cases s with
    | edge a b st ah =>
      constructor
      · intro k
        rw [nodes_fold_cons_edge, (ih acc).1 k]
        simp [node_stmt_names, List.filterMap_cons]
      · intro hnd
        rw [nodes_fold_cons_edge]
        exact (ih acc).2 hnd
    | node n lb =>
      have hcons : node_stmt_names (Stmt.node n lb :: rest) = n :: node_stmt_names rest := rfl
      constructor
      · intro k
        rw [nodes_fold_cons_node, (ih _).1 k, upsert_keys, hcons, List.mem_cons]
        by_cases h : n ∈ acc.map Prod.fst
        · rw [if_pos h]
          have hkn : k = n → k ∈ acc.map Prod.fst := fun e => e ▸ h
          tauto
        · rw [if_neg h, List.mem_append, List.mem_singleton]
          tauto
      · intro hnd
        rw [nodes_fold_cons_node]
        apply (ih _).2
        rw [upsert_keys]
        by_cases h : n ∈ acc.map Prod.fst
        · rw [if_pos h]; exact hnd
        · rw [if_neg h, List.nodup_append]
          refine ⟨hnd, List.nodup_singleton n, ?_⟩
          intro a ha hb
          rw [List.mem_singleton] at hb
          subst hb
          exact h ha

/-- Edge selection distributes over statement-list concatenation. -/
theorem edgeStmts_append (a b : List Stmt) :
    edgeStmts (a ++ b) = edgeStmts a ++ edgeStmts b := by
  simp [edgeStmts, List.filter_append]

/-- Everything the edge loop emits is an edge statement. -/
theorem edgeStmts_edges_for (c : Cls) (bts : List HTree) :
    edgeStmts (edges_for c bts) = edges_for c bts := by
  induction bts with
  | nil => rfl
  | cons t ts ih =>
    cases t with
    | leaf c' => simpa [edges_for, List.filterMap_cons] using ih
    | node b bts' =>
      simp [edges_for, List.filterMap_cons, edgeStmts, isEdge] at ih ⊢
      exact ih

/-- The edge loop, with the style condition spelled out on the base's
abstract-member set: solid iff that set is empty. -/
theorem edges_for_isEmpty_form (c : Cls) (bts : List HTree) :
    edges_for c bts = bts.filterMap (fun bt =>
      match bt with
      | HTree.node b _ =>
        some (Stmt.edge b.name c.name
          (if b.abstractmethods.isEmpty then "solid" else "dashed") "vee")
      | HTree.leaf _ => none) := by
  unfold edges_for
  congr 1
  funext bt
  cases bt with
  | leaf c' => rfl
  | node b bts' =>
    rcases Bool.eq_false_or_eq_true (b.abstractmethods.isEmpty) with hb | hb
    · simp [isabstract, hb]
    · simp [isabstract, hb]


/-- A name found in any member bucket after one `add_bucket` step is either
the newly filed name or was already in a bucket. -/
theorem add_bucket_mem (b : Option MKind) (nm cn k : String) (bs : Buckets) (n : String)
    (h : n ∈ (add_bucket b nm cn k bs).data ∨ n ∈ (add_bucket b nm cn k bs).methods ∨
         n ∈ (add_bucket b nm cn k bs).properties ∨ n ∈ (add_bucket b nm cn k bs).classmethods ∨
         n ∈ (add_bucket b nm cn k bs).staticmethods ∨ n ∈ (add_bucket b nm cn k bs).privatemethods ∨
         n ∈ (add_bucket b nm cn k bs).magicmethods) :
    n = nm ∨ (n ∈ bs.data ∨ n ∈ bs.methods ∨ n ∈ bs.properties ∨ n ∈ bs.classmethods ∨
              n ∈ bs.staticmethods ∨ n ∈ bs.privatemethods ∨ n ∈ bs.magicmethods) := by
  cases b with
  | none =>
    simp [add_bucket] at h
    tauto
  | some m =>
    cases m <;> simp [add_bucket, List.mem_cons] at h <;> tauto

/-- When every class in the input list has an excluded name, the walk
produces no subtree at all. -/
theorem classtree_recursion_all_excluded (cs : List Cls) (excl : List String)
    (h : ∀ b ∈ cs, b.name ∈ excl) :
    ∀ acc, (classtree_recursion cs acc excl).1 = [] := by
  induction cs with
  | nil => intro acc; rfl
  | cons c rest ih =>
    intro acc
    have hcex : c.name ∈ excl := h c (by simp)
    cases c with
    | mk i n md bases attrs am =>
      simp only [Cls.name] at hcex
      simp only [classtree_recursion, classtree_class]
      rw [if_pos (by simpa using hcex)]
      simpa using ih (fun b hb => h b (by simp [hb])) acc


/-- When the magic name pattern fails propositionally, the boolean guard of
`attr_bucket` is false. -/
theorem magic_cond_false (name : String)
    (hm : ¬(name_slice_front name = ['_', '_'] ∧ name_slice_back name = ['_', '_'])) :
    (name_slice_front name == ['_', '_'] && name_slice_back name == ['_', '_']) = false := by
  rcases not_and_or.mp hm with h | h
  · simp [beq_eq_false_iff_ne.mpr h]
  · simp [beq_eq_false_iff_ne.mpr h]

/-- Claim C1 (amended): for every root list and exclusion list, the graph
assembled from the hierarchy tree has exactly one NodeSpec per distinct
class *name* reachable from the roots (excluding excluded names), no matter
how many inheritance paths reach a class: the semantic node-name list has no
duplicates and contains exactly the reachable class names.  (The claim's
identity-based version fails: nodes are keyed by `__name__`, see
`same_name_classes_collapse`.) -/
theorem nodes_unique_per_name (cfg : Config) (cs : List Cls) (excl : List String)
    (engine : String) (sm : Bool) (r : List String)
    (h : (generate_dot cfg (classtree cs excl).1 engine sm).map nodeNames = Except.ok r) :
    r.Nodup ∧ ∀ n, (n ∈ r ↔ n ∈ (reach_list excl cs).map Cls.name) := by
  cases hrec : dot_recursion cfg (tree_roots (classtree cs excl).1) sm (classtree cs excl).1 with
  | error e => simp [generate_dot, hrec, Except.map] at h
  | ok body =>
    simp [generate_dot, hrec, Except.map] at h
    have hr : r = (nodes_fold [] body).map Prod.fst := by rw [← h]; rfl
    have hnames : node_stmt_names body = (pre_forest (classtree cs excl).1).map Cls.name :=
      dot_recursion_nodes cfg _ sm _ body hrec
    have hpre : pre_forest (classtree cs excl).1 = reach_list excl cs :=
      classtree_recursion_pre cs [] excl
    constructor
    · rw [hr]
      exact (nodes_fold_keys body []).2 (by simp)
    · intro n
      rw [hr, (nodes_fold_keys body []).1 n]
      simp [hnames, hpre]

/-- Witness for `nodes_unique_per_name`: the diamond hierarchy, whose graph
has node names `A, B, D, C` without duplicates, `D` appearing once although
it is reached twice. -/
theorem nodes_unique_per_name_w :
    (["A", "B", "D", "C"] : List String).Nodup ∧
      ("D" ∈ (["A", "B", "D", "C"] : List String) ↔
        "D" ∈ (reach_list (main_excluded []) [clsA]).map Cls.name) :=
  ⟨(nodes_unique_per_name cfg0 [clsA] (main_excluded []) "dot" false
      ["A", "B", "D", "C"] rfl).1,
   (nodes_unique_per_name cfg0 [clsA] (main_excluded []) "dot" false
      ["A", "B", "D", "C"] rfl).2 "D"⟩

/-- Counterexample to claim C1 as stated: two distinct classes (different
identities, different modules) both named `X` yield a single NodeSpec — the
graph keys nodes by bare class name (`dot.node(subtree.__name__, ...)`), so
they collapse instead of each receiving their own NodeSpec. -/
theorem same_name_classes_collapse :
    (generate_dot cfg0 (classtree [clsX1, clsX2] (main_excluded [])).1 "dot" true).map
      nodeNames = Except.ok ["X"] ∧
    idEq clsX1 clsX2 = false ∧ clsX1.moduleName ≠ clsX2.moduleName :=
  ⟨rfl, rfl, by decide⟩

/-- Claim C2: for root `A` with bases `(B, C)`, both deriving from `D` (and
`object` excluded by default), the assembled graph has exactly the four
nodes `A, B, D, C` (D not duplicated) and exactly the four edges
`D→B, D→C, B→A, C→A`, all solid. -/
theorem diamond_scenario :
    (generate_dot cfg0 (classtree [clsA] (main_excluded [])).1 "dot" false).map
      (fun d => (nodeNames d, edgeStmts d.body)) =
    Except.ok (["A", "B", "D", "C"],
      [Stmt.edge "D" "B" "solid" "vee", Stmt.edge "D" "C" "solid" "vee",
       Stmt.edge "B" "A" "solid" "vee", Stmt.edge "C" "A" "solid" "vee"]) := rfl

/-- Claim C3 (amended): every member name in any of the seven
name/kind-classified buckets of a class comes from an attribute whose
defining class is exactly that class — inherited members never enter those
buckets.  (The abstract-methods bucket is an exception, see
`inherited_abstract_method_in_label`.) -/
theorem classified_members_declared_here (cid : Nat) (cn : String) (attrs : List Attr)
    (bs : Buckets) (h : classify_attrs cid cn attrs = Except.ok bs) (n : String)
    (hn : n ∈ bs.data ∨ n ∈ bs.methods ∨ n ∈ bs.properties ∨ n ∈ bs.classmethods ∨
          n ∈ bs.staticmethods ∨ n ∈ bs.privatemethods ∨ n ∈ bs.magicmethods) :
    ∃ a, a ∈ attrs ∧ a.name = n ∧ a.definingClass = cid := by
  induction attrs generalizing bs with
  | nil =>
    simp [classify_attrs] at h
    rw [← h] at hn
    simp [emptyBuckets] at hn
  | cons a rest ih =>
    by_cases hd : a.definingClass = cid
    · have hne : (a.definingClass != cid) = false := by simp [hd]
      simp only [classify_attrs, hne, Bool.false_eq_true, if_false] at h
      cases hb : attr_bucket a.name a.kind with
      | error e => rw [hb] at h; simp at h
      | ok b =>
        rw [hb] at h
        cases hrest : classify_attrs cid cn rest with
        | error e => rw [hrest] at h; simp [Except.map] at h
        | ok bs' =>
          rw [hrest] at h
          simp [Except.map] at h
          rw [← h] at hn
          rcases add_bucket_mem b a.name cn a.kind bs' n hn with hnm | hrec2
          · exact ⟨a, by simp, hnm.symm, hd⟩
          · obtain ⟨a', ha', hn', hd'⟩ := ih bs' hrest hrec2
            exact ⟨a', by simp [ha'], hn', hd'⟩
    · have hne : (a.definingClass != cid) = true := by simp [hd]
      simp only [classify_attrs, hne, if_true] at h
      obtain ⟨a', ha', hn', hd'⟩ := ih bs h hn
      exact ⟨a', by simp [ha'], hn', hd'⟩

/-- Witness for `classified_members_declared_here`: a class declaring
`foo` directly; the classified `foo` is its own attribute. -/
theorem classified_members_declared_here_w :
    ∃ a, a ∈ [Attr.mk "foo" "method" 7] ∧ a.name = "foo" ∧ a.definingClass = 7 :=
  classified_members_declared_here 7 "W" [Attr.mk "foo" "method" 7]
    ⟨[], [], ["foo"], [], [], [], [], []⟩ rfl "foo" (Or.inr (Or.inl (by simp)))

/-- Counterexample to claim C3 as stated: `Child` inherits abstract `foo`
from `Base` without declaring anything itself (its filtered attribute list
is empty), yet with the abstract bucket enabled its label renders a
non-empty abstract-methods section listing `foo` — the abstract bucket is
taken from `__abstractmethods__`, which includes inherited abstract
members. -/
theorem inherited_abstract_method_in_label :
    node_label cfgAbs clsChild false false =
      Except.ok (render_label cfgAbs clsChild false false emptyBuckets ["foo"]) ∧
    section_template "Abstract methods" (some ["foo"]) ≠ "" ∧
    clsChild.attrs.filter (fun a => a.definingClass == clsChild.cid) = [] :=
  ⟨rfl, by decide, rfl⟩

/-- Claim C4 (amended): with the `__main__` default exclusions (no
user-supplied ones), a class whose only base is `object` becomes an internal
tree entry with an *empty* base-subtree list — not a bare leaf — and the
assembled graph has exactly its own node and no edge, so no node and no
edge for the universal base. -/
theorem object_excluded_by_default (c b : Cls) (hb : c.bases = [b]) (hbn : b.name = "object")
    (hc : c.name ≠ "object") (cfg : Config) (engine : String) (sm : Bool)
    (r : List String × List Stmt)
    (h : (generate_dot cfg (classtree [c] (main_excluded [])).1 engine sm).map
          (fun d => (nodeNames d, edgeStmts d.body)) = Except.ok r) :
    (classtree [c] (main_excluded [])).1 = [HTree.node c []] ∧ r = ([c.name], []) := by
  have htree : (classtree [c] (main_excluded [])).1 = [HTree.node c []] := by
    cases c with
    | mk i n md bases attrs am =>
      simp only [Cls.bases] at hb
      simp only [Cls.name] at hc
      subst hb
      cases b with
      | mk bi bn bmd bb battrs bam =>
        simp only [Cls.name] at hbn
        subst hbn
        simp [classtree, classtree_recursion, classtree_class, main_excluded, hc]
  refine ⟨htree, ?_⟩
  rw [htree] at h
  cases hnl : node_label cfg c (memId c (tree_roots [HTree.node c []])) sm with
  | error e =>
    simp [generate_dot, dot_recursion, dot_tree, hnl, Except.map] at h
  | ok lb =>
    simp [generate_dot, dot_recursion, dot_tree, hnl, Except.map, edges_for] at h
    rw [← h]
    simp [nodeNames, nodeSpecs, nodes_fold, upsert_node, edgeStmts, isEdge]

/-- Witness for `object_excluded_by_default` at the concrete class `D` with
single base `object`. -/
theorem object_excluded_by_default_w :
    (classtree [clsD] (main_excluded [])).1 = [HTree.node clsD []] ∧
      ((["D"], ([] : List Stmt)) : List String × List Stmt) = ([clsD.name], []) :=
  object_excluded_by_default clsD objectCls rfl rfl (by decide) cfg0 "dot" false
    (["D"], []) rfl

/-- Counterexample to claim C4's leaf phrasing: `D(object)` under the
default exclusions is stored as the pair `(D, [])`, not as a bare leaf
(`c.__bases__` is non-empty, so the tuple branch is taken even though every
base is excluded). -/
theorem object_base_not_leaf :
    (classtree [clsD] (main_excluded [])).1 = [HTree.node clsD []] ∧
    (classtree [clsD] (main_excluded [])).1 ≠ [HTree.leaf clsD] :=
  ⟨rfl, fun h => by
    have h2 : [HTree.node clsD []] = [HTree.leaf clsD] := h
    injection h2 with h1 h3
    exact HTree.noConfusion h1⟩

/-- Claim C5 is violated by the code: classifying a class with a
directly-declared member named `_` raises `IndexError` (the guard
`attr.name[0] == "_" and attr.name[1] != "_"` indexes position 1 of a
length-1 string), and the whole graph assembly aborts with that error
instead of completing. -/
theorem classification_raises_on_underscore_member :
    node_label cfg0 clsUnder false false =
      Except.error "IndexError: string index out of range" ∧
    generate_dot cfg0 (classtree [clsUnder] (main_excluded [])).1 "dot" false =
      Except.error "IndexError: string index out of range" :=
  ⟨rfl, rfl⟩

/-- Claim C6 is violated by the code: the `Digraph` is constructed with the
hardcoded literal `engine="fdp"`; the caller-selected engine string (here
`"dot"`, the CLI default) is never forwarded. -/
theorem engine_parameter_ignored :
    (generate_dot cfg0 (classtree [clsA] (main_excluded [])).1 "dot" false).map
      Digraph.engine = Except.ok "fdp" ∧ ("fdp" : String) ≠ "dot" :=
  ⟨rfl, by decide⟩

/-- Claim C7 (amended): for an internal node, the emitted edges are those
of the base subtrees plus exactly one edge per direct non-excluded base
*whose subtree is itself a pair* — a base stored as a bare leaf (a class
with no bases at all) produces no edge.  Each edge is directed
base → derived and is dashed iff the base's abstract-member set is
non-empty, solid otherwise. -/
theorem one_edge_per_internal_base (cfg : Config) (rc : List Cls) (sm : Bool) (c : Cls)
    (bts : List HTree) (es es' : List Stmt)
    (h : (dot_tree cfg rc sm (HTree.node c bts)).map edgeStmts = Except.ok es)
    (h' : (dot_recursion cfg rc sm bts).map edgeStmts = Except.ok es') :
    es = es' ++ bts.filterMap (fun bt =>
      match bt with
      | HTree.node b _ =>
        some (Stmt.edge b.name c.name
          (if b.abstractmethods.isEmpty then "solid" else "dashed") "vee")
      | HTree.leaf _ => none) := by
  rw [← edges_for_isEmpty_form]
  cases hnl : node_label cfg c (memId c rc) sm with
  | error e => simp [dot_tree, hnl, Except.map] at h
  | ok lb =>
    cases hrec : dot_recursion cfg rc sm bts with
    | error e => simp [dot_tree, hnl, hrec, Except.map] at h
    | ok rest =>
      rw [hrec] at h'
      simp [Except.map] at h'
      simp [dot_tree, hnl, hrec, Except.map] at h
      rw [← h, ← h']
      have hhead : edgeStmts (Stmt.node c.name lb :: (rest ++ edges_for c bts)) =
          edgeStmts (rest ++ edges_for c bts) := by
        simp [edgeStmts, isEdge]
      rw [hhead, edgeStmts_append, edgeStmts_edges_for]

/-- Witness for `one_edge_per_internal_base`: `Der2` with an abstract
internal base (dashed edge), a concrete internal base (solid edge) and a
bare-leaf base (no edge). -/
theorem one_edge_per_internal_base_w :
    [Stmt.edge "AbsB" "Der2" "dashed" "vee", Stmt.edge "SolB" "Der2" "solid" "vee"] =
      [] ++ der2bases.filterMap (fun bt =>
        match bt with
        | HTree.node b _ =>
          some (Stmt.edge b.name clsDer2.name
            (if b.abstractmethods.isEmpty then "solid" else "dashed") "vee")
        | HTree.leaf _ => none) :=
  one_edge_per_internal_base cfg0 [clsDer2] false clsDer2 der2bases
    [Stmt.edge "AbsB" "Der2" "dashed" "vee", Stmt.edge "SolB" "Der2" "solid" "vee"]
    [] rfl rfl

/-- Counterexample to claim C7 as stated: `Der(NB)` where `NB` has no bases
at all and is not excluded — `NB`'s subtree is a bare leaf, the edge loop
only draws edges for tuple subtrees, so the graph has both nodes but zero
edges, not the claimed one edge per direct base. -/
theorem leaf_base_gets_no_edge :
    (generate_dot cfg0 (classtree [clsDer] []).1 "dot" false).map
      (fun d => (nodeNames d, edgeStmts d.body)) = Except.ok (["Der", "NB"], []) ∧
    (classtree [clsDer] []).1 = [HTree.node clsDer [HTree.leaf clsNoB]] :=
  ⟨rfl, rfl⟩

/-- Claim C8 (amended): bucket choice is by priority — the magic name
pattern wins first, then the private pattern (leading underscore with a
non-underscore second character), then the reflective kind decides among the
five known kinds, an unrecognized kind yielding no bucket; each completed
classification returns exactly one bucket, and a magic-named member is filed
only under magic, never private.  (Totality fails on the names `""` and
`"_"`, which raise — see `underscore_name_classification_raises`.) -/
theorem bucket_priority (name kind : String) :
    (name_slice_front name = ['_', '_'] ∧ name_slice_back name = ['_', '_'] →
      attr_bucket name kind = Except.ok (some MKind.magicmember)) ∧
    (¬(name_slice_front name = ['_', '_'] ∧ name_slice_back name = ['_', '_']) →
      ∀ c1, name.data[0]? = some '_' → name.data[1]? = some c1 → c1 ≠ '_' →
        attr_bucket name kind = Except.ok (some MKind.privatemember)) ∧
    (¬(name_slice_front name = ['_', '_'] ∧ name_slice_back name = ['_', '_']) →
      ∀ c0, name.data[0]? = some c0 → c0 ≠ '_' →
        attr_bucket name kind = Except.ok (kind_bucket kind)) ∧
    (¬(name_slice_front name = ['_', '_'] ∧ name_slice_back name = ['_', '_']) →
      name.data[0]? = some '_' → name.data[1]? = some '_' →
        attr_bucket name kind = Except.ok (kind_bucket kind)) ∧
    (kind_bucket "data" = some MKind.data ∧ kind_bucket "method" = some MKind.method ∧
     kind_bucket "property" = some MKind.property ∧
     kind_bucket "class method" = some MKind.classmethod ∧
     kind_bucket "static method" = some MKind.staticmethod) ∧
    (kind ∉ ["data", "method", "property", "class method", "static method"] →
      kind_bucket kind = none) := by
  refine ⟨?_, ?_, ?_, ?_, ⟨rfl, rfl, rfl, rfl, rfl⟩, ?_⟩
  · intro hm
    simp [attr_bucket, hm.1, hm.2]
  · intro hm c1 h0 h1 hne
    simp [attr_bucket, magic_cond_false name hm, h0, h1, hne]
  · intro hm c0 h0 hne
    simp [attr_bucket, magic_cond_false name hm, h0, hne]
  · intro hm h0 h1
    simp [attr_bucket, magic_cond_false name hm, h0, h1]
  · intro hk
    simp only [List.mem_cons, List.not_mem_nil, or_false, not_or] at hk
    obtain ⟨h1, h2, h3, h4, h5⟩ := hk
    simp [kind_bucket, h1, h2, h3, h4, h5]

/-- Witness for `bucket_priority`: `__call__` is filed under magic. -/
theorem bucket_priority_w :
    attr_bucket "__call__" "method" = Except.ok (some MKind.magicmember) :=
  (bucket_priority "__call__" "method").1 (by decide)

/-- Counterexample to claim C8 as stated: the directly-declared member
names `_` and `""` are assigned to no bucket at all — classification raises
`IndexError` instead. -/
theorem underscore_name_classification_raises :
    attr_bucket "_" "data" = Except.error "IndexError: string index out of range" ∧
    attr_bucket "" "data" = Except.error "IndexError: string index out of range" :=
  ⟨rfl, rfl⟩

/-- Claim C9 (amended): a class becomes a bare leaf exactly when it has no
bases at all; a class with bases that are all excluded — zero non-excluded
bases — becomes an internal entry with an empty base-subtree list instead
(the code branches on `c.__bases__` being non-empty, before exclusions). -/
theorem leaf_iff_no_bases_at_all (c : Cls) (excl : List String)
    (hc : c.name ∉ excl) :
    (c.bases = [] → (classtree [c] excl).1 = [HTree.leaf c]) ∧
    ((∀ b ∈ c.bases, b.name ∈ excl) → c.bases ≠ [] →
      (classtree [c] excl).1 = [HTree.node c []]) := by
  cases c with
  | mk i n md bases attrs am =>
    simp only [Cls.name] at hc
    simp only [Cls.bases]
    constructor
    · intro hbe
      subst hbe
      simp [classtree, classtree_recursion, classtree_class, hc]
    · intro hall hne
      simp [classtree, classtree_recursion, classtree_class, hc, hne,
            classtree_recursion_all_excluded bases excl hall]

/-- Witness for `leaf_iff_no_bases_at_all`: `Hidden` (no bases) is a bare
leaf; `E(Hidden)` with `Hidden` excluded is an internal entry with an empty
subtree list. -/
theorem leaf_iff_no_bases_at_all_w :
    (classtree [clsHidden] []).1 = [HTree.leaf clsHidden] ∧
    (classtree [clsE] ["Hidden"]).1 = [HTree.node clsE []] :=
  ⟨(leaf_iff_no_bases_at_all clsHidden [] (by decide)).1 rfl,
   (leaf_iff_no_bases_at_all clsE ["Hidden"] (by decide)).2 (by decide)
     (by intro h; simp [clsE, Cls.bases] at h)⟩

/-- Counterexample to claim C9 as stated: `E` has zero non-excluded bases
(its only base `Hidden` is excluded) yet is represented as the internal node
`(E, [])`, not as a bare leaf. -/
theorem excluded_bases_not_leaf :
    (classtree [clsE] ["Hidden"]).1 = [HTree.node clsE []] ∧
    (classtree [clsE] ["Hidden"]).1 ≠ [HTree.leaf clsE] :=
  ⟨rfl, fun h => by
    have h2 : [HTree.node clsE []] = [HTree.leaf clsE] := h
    injection h2 with h1 h3
    exact HTree.noConfusion h1⟩

/-- Claim C10: a disabled bucket contributes nothing to the node label —
the rendered label is independent of that bucket's contents (so no member
record of a disabled bucket can appear in any emitted label), and a
suppressed section, header included, renders as the empty string. -/
theorem disabled_bucket_omitted (cfg : Config) (cls : Cls) (root sm : Bool) (bs : Buckets)
    (absm : List String) :
    (∀ nm, section_template nm none = "") ∧
    (cfg.include_data = false → ∀ l,
      render_label cfg cls root sm { bs with data := l } absm =
      render_label cfg cls root sm { bs with data := [] } absm) ∧
    (cfg.include_methods = false → ∀ l,
      render_label cfg cls root sm { bs with methods := l } absm =
      render_label cfg cls root sm { bs with methods := [] } absm) ∧
    (cfg.include_properties = false → ∀ l,
      render_label cfg cls root sm { bs with properties := l } absm =
      render_label cfg cls root sm { bs with properties := [] } absm) ∧
    (cfg.include_classmethods = false → ∀ l,
      render_label cfg cls root sm { bs with classmethods := l } absm =
      render_label cfg cls root sm { bs with classmethods := [] } absm) ∧
    (cfg.include_staticmethods = false → ∀ l,
      render_label cfg cls root sm { bs with staticmethods := l } absm =
      render_label cfg cls root sm { bs with staticmethods := [] } absm) ∧
    (cfg.include_privatemethods = false → ∀ l,
      render_label cfg cls root sm { bs with privatemethods := l } absm =
      render_label cfg cls root sm { bs with privatemethods := [] } absm) ∧
    (cfg.include_magicmethods = false → ∀ l,
      render_label cfg cls root sm { bs with magicmethods := l } absm =
      render_label cfg cls root sm { bs with magicmethods := [] } absm) ∧
    (cfg.include_abstractmethods = false → ∀ l,
      render_label cfg cls root sm bs l = render_label cfg cls root sm bs []) := by
  refine ⟨fun nm => rfl, ?_, ?_, ?_, ?_, ?_, ?_, ?_, ?_⟩ <;>
    · intro hflag l
      simp [render_label, optIf, hflag]

/-- Witness for `disabled_bucket_omitted`: with all buckets disabled a
ghost entry in the methods bucket leaves the label unchanged, and the
suppressed section is empty. -/
theorem disabled_bucket_omitted_w :
    section_template "Methods" none = "" ∧
    render_label cfg0 clsA false false { emptyBuckets with methods := ["ghost"] } [] =
      render_label cfg0 clsA false false { emptyBuckets with methods := [] } [] :=
  ⟨(disabled_bucket_omitted cfg0 clsA false false emptyBuckets []).1 "Methods",
   (disabled_bucket_omitted cfg0 clsA false false emptyBuckets []).2.2.1 rfl ["ghost"]⟩

end StructureChart
